import Mathlib

/-!
Verification of the core logic of the where-did-I-park application.

The embedding models the TypeScript sources:
  src/lib/compass.ts  (startCompass, startCountdown, readCountdown, formatMMSS)
  src/lib/geo.ts      (formatDistance)
  src/App.tsx         (arrowRotation, getBestPosition)

JavaScript numbers are modelled as rationals (ℚ), together with the two
non-numeric cases the code tests for: an absent/undefined/null field and NaN.
Epoch timestamps are modelled as integers (ℤ).  Statements about the
JavaScript operators Math.floor, Math.ceil, Math.round, % and toFixed are
made through explicit executable counterparts defined below.
-/

/-- Floor of a rational as an integer, computable in the kernel
(`Int.fdiv` of numerator and denominator). -/
def ratFloorZ (q : ℚ) : ℤ := Int.fdiv q.num (q.den : ℤ)

/-- Ceiling of a rational as an integer, computable in the kernel. -/
def ratCeilZ (q : ℚ) : ℤ := -(ratFloorZ (-q))

/-- Truncation toward zero, the rounding used by the JavaScript `%` operator. -/
def ratTruncZ (q : ℚ) : ℤ := if q < 0 then ratCeilZ q else ratFloorZ q

/-- The JavaScript remainder operator `a % b` on numbers:
`a - b * truncate(a / b)` (sign follows the dividend). -/
def jsMod (a b : ℚ) : ℚ := a - b * (ratTruncZ (a / b) : ℚ)

/-- JavaScript `Math.round`: floor of `q + 1/2` (half-up, toward +infinity). -/
def jsRound (q : ℚ) : ℤ := ratFloorZ (q + 1/2)

/-- Mathematical modulus used by the specification text: `a - b * ⌊a / b⌋`. -/
def specMod (a b : ℚ) : ℚ := a - b * (⌊a / b⌋ : ℚ)

/-- JavaScript `String.prototype.padStart(2, "0")`. -/
def pad2 (s : String) : String :=
  if s.length < 2 then String.mk (List.replicate (2 - s.length) '0') ++ s else s

theorem ratFloorZ_eq (q : ℚ) : ratFloorZ q = ⌊q⌋ := by
  rw [Rat.floor_def, ratFloorZ]
  rw [Int.fdiv_eq_ediv _ (by positivity)]

theorem ratCeilZ_eq (q : ℚ) : ratCeilZ q = ⌈q⌉ := by
  rw [ratCeilZ, ratFloorZ_eq, Int.floor_neg, neg_neg]

theorem ratTruncZ_eq (q : ℚ) : ratTruncZ q = if q < 0 then ⌈q⌉ else ⌊q⌋ := by
  rw [ratTruncZ, ratCeilZ_eq, ratFloorZ_eq]

theorem jsRound_eq (q : ℚ) : jsRound q = ⌊q + 1/2⌋ := by
  rw [jsRound, ratFloorZ_eq]

/-- For a nonnegative dividend and positive divisor the JavaScript remainder
agrees with the mathematical modulus. -/
theorem jsMod_eq_specMod (a b : ℚ) (ha : 0 ≤ a) (hb : 0 < b) :
    jsMod a b = specMod a b := by
  rw [jsMod, specMod, ratTruncZ_eq, if_neg]
  exact not_lt.mpr (by positivity)

/-! ## Heading Source (src/lib/compass.ts, startCompass) -/

/-- The value of a JavaScript field as the heading code observes it: a finite
number, NaN, or no usable value at all (field absent, undefined or null).
Non-finite infinities are not modelled; the orientation API delivers finite
numbers or null. -/
inductive JSVal
  | undef
  | nan
  | num (x : ℚ)
deriving DecidableEq

/-- The check `typeof v === "number" && !Number.isNaN(v)` from the handler:
returns the value when it passes, nothing otherwise. -/
def usableNum : JSVal → Option ℚ
  | .num x => some x
  | _ => none

/-- A DeviceOrientationEvent as the handler reads it: the iOS field
`webkitCompassHeading` and the standard field `alpha`. -/
structure OrientEvent where
  webkitCompassHeading : JSVal
  alpha : JSVal
deriving DecidableEq

/-- The HeadingState record emitted to `onUpdate`. -/
structure HeadingState where
  heading : Option ℚ
  permissionNeeded : Bool
  error : Option String
deriving DecidableEq

/-- The event handler installed by `startCompass`: with the closure flag
`active` passed explicitly.  When inactive, the handler returns without
emitting (`if (!active) return;`); otherwise it tries
`webkitCompassHeading` verbatim, then `(360 - alpha) % 360`, then reports
`"No heading data"`. -/
def compassHandler (active : Bool) (ev : OrientEvent) : Option HeadingState :=
  if !active then none
  else
    match usableNum ev.webkitCompassHeading with
    | some h => some { heading := some h, permissionNeeded := false, error := none }
    | none =>
      match usableNum ev.alpha with
      | some a =>
          some { heading := some (jsMod (360 - a) 360), permissionNeeded := false,
                 error := none }
      | none =>
          some { heading := none, permissionNeeded := false,
                 error := some "No heading data" }

/-- What can happen to a running compass listener: an orientation event is
dispatched to the handler, or the stop function returned by `startCompass`
is called (it sets `active := false` and removes the listener; nothing ever
sets the flag back to true for this listener). -/
inductive CompassAction
  | orient (ev : OrientEvent)
  | stopCall

/-- The stream of HeadingState updates delivered to `onUpdate` while
processing a sequence of actions, starting from a given `active` flag
(`startCompass` starts it at `true`). -/
def compassOutputs (active : Bool) : List CompassAction → List HeadingState
  | [] => []
  | .orient ev :: rest => (compassHandler active ev).toList ++ compassOutputs active rest
  | .stopCall :: rest => compassOutputs false rest

/-! ## Countdown Timer (src/lib/timer.ts: startCountdown, readCountdown, formatMMSS) -/

/-- The Countdown record `{ endsAt: number | null; remainingMs: number }`. -/
structure Countdown where
  endsAt : Option ℤ
  remainingMs : ℤ
deriving DecidableEq

/-- `startCountdown(minutes)`: `endsAt = Date.now() + Math.max(1,
Math.round(minutes * 60_000))`, `remainingMs = endsAt - Date.now()`.  The two
`Date.now()` reads are microseconds apart and are modelled at the single
instant `now`. -/
def startCountdown (minutes : ℚ) (now : ℤ) : Countdown :=
  let endsAt : ℤ := now + max 1 (jsRound (minutes * 60000))
  { endsAt := some endsAt, remainingMs := endsAt - now }

/-- `readCountdown(c)`: if `!c.endsAt` (null, or 0 which is falsy in
JavaScript) return the idle record, otherwise recompute
`remainingMs = Math.max(0, c.endsAt - Date.now())`. -/
def readCountdown (c : Countdown) (now : ℤ) : Countdown :=
  match c.endsAt with
  | none => { endsAt := none, remainingMs := 0 }
  | some e =>
      if e = 0 then { endsAt := none, remainingMs := 0 }
      else { endsAt := some e, remainingMs := max 0 (e - now) }

/-- `formatMMSS(ms)`: `s = Math.ceil(ms / 1000)`, minutes `Math.floor(s /
60)` and seconds `s % 60`, each rendered with `padStart(2, "0")`. -/
def formatMMSS (ms : ℚ) : String :=
  let s : ℤ := ratCeilZ (ms / 1000)
  let mm := pad2 (toString (Int.fdiv s 60))
  let ss := pad2 (toString (Int.tmod s 60))
  mm ++ ":" ++ ss

/-! ## Geo Math formatter (src/lib/geo.ts, formatDistance) -/

/-- JavaScript `x.toFixed(2)` for nonnegative `x`: the integer `n` of
hundredths nearest to `100 * x` (ties toward +infinity), rendered as the
integer part, a dot, and the two-digit fraction. -/
def toFixed2 (x : ℚ) : String :=
  let n : ℤ := jsRound (x * 100)
  toString (Int.fdiv n 100) ++ "." ++ pad2 (toString (Int.tmod n 100))

/-- `formatDistance(meters)`: below 1000 rounded whole meters with unit
`m`, otherwise kilometers via `toFixed(2)` with unit `km`. -/
def formatDistance (meters : ℚ) : String :=
  if meters < 1000 then toString (jsRound meters) ++ " m"
  else toFixed2 (meters / 1000) ++ " km"

/-! ## Navigation Fusion (src/App.tsx, arrowRotation) -/

/-- The `arrowRotation` memo from App.tsx: 0 when there is no bearing,
the bearing itself when there is no heading, and
`(bearing - heading + 360) % 360` when both are present.  The bearing is
the integer `Math.round(bearingFromTo(...))`; the heading is a number. -/
def arrowRotation (bearing : Option ℤ) (heading : Option ℚ) : ℚ :=
  match bearing with
  | none => 0
  | some b =>
    match heading with
    | none => (b : ℚ)
    | some h => jsMod ((b : ℚ) - h + 360) 360

/-! ## Position Acquirer (src/App.tsx, getBestPosition) -/

/-- The coordinates of a geolocation sample; `accuracy` may be absent
(the code defaults it with `?? 99999`). -/
structure GeoCoords where
  latitude : ℚ
  longitude : ℚ
  accuracy : Option ℚ
deriving DecidableEq

/-- A GeolocationPosition delivered by the watch stream. -/
structure GeoPosition where
  coords : GeoCoords
  timestamp : ℤ
deriving DecidableEq

/-- One callback delivered by `navigator.geolocation.watchPosition`:
either a position sample or a stream error, tagged with the value
`Date.now()` reads when the callback runs. -/
inductive GeoEvent
  | sample (nowMs : ℤ) (pos : GeoPosition)
  | failure (nowMs : ℤ) (msg : String)

/-- How the promise returned by `getBestPosition` settles: the immediate
rejection when geolocation is missing, resolution with a sample, rejection
with a stream error, or still pending after the given events. -/
inductive AcqOutcome
  | unsupported
  | resolved (pos : GeoPosition)
  | errored (msg : String)
  | pending
deriving DecidableEq

/-- `pos.coords.accuracy ?? 99999`: the sentinel the code substitutes for an
unknown accuracy. -/
def acc99999 (p : GeoPosition) : ℚ := p.coords.accuracy.getD 99999

/-- The best-so-far update `if (!best || acc < (best.coords.accuracy ??
99999)) best = pos;` — a strict less-than comparison, so an equally
accurate later sample does not replace the current best. -/
def updateBest (best : Option GeoPosition) (pos : GeoPosition) : GeoPosition :=
  match best with
  | none => pos
  | some b => if acc99999 pos < acc99999 b then pos else b

/-- Folding `updateBest` over a list of samples (the value of the `best`
variable after those samples were processed). -/
def foldBest (best : Option GeoPosition) (l : List GeoPosition) : Option GeoPosition :=
  l.foldl (fun b p => some (updateBest b p)) best

/-- The body of the success callback of `getBestPosition`, iterated over the
stream of events.  On a sample: update `best`; resolve with the sample when
its accuracy meets `desiredAccuracyM`; otherwise resolve with `best` when
more than `maxWaitMs` ms have passed since `start` (`best` is never null
there, having just been updated, so `best ?? pos` is `best`).  On an error
callback: clear the watch and reject. -/
def watchLoop (startMs : ℤ) (maxWaitMs desiredAccuracyM : ℚ) :
    Option GeoPosition → List GeoEvent → AcqOutcome
  | _, [] => .pending
  | _, .failure _ msg :: _ => .errored msg
  | best, .sample now pos :: rest =>
      let acc := acc99999 pos
      let best2 := updateBest best pos
      if acc ≤ desiredAccuracyM then .resolved pos
      else if maxWaitMs < ((now - startMs : ℤ) : ℚ) then .resolved best2
      else watchLoop startMs maxWaitMs desiredAccuracyM (some best2) rest

/-- `getBestPosition({maxWaitMs, desiredAccuracyM})`: rejects at once when
`!("geolocation" in navigator)`, otherwise opens the watch at time
`startMs` and processes its callbacks. -/
def getBestPosition (geoSupported : Bool) (startMs : ℤ)
    (maxWaitMs desiredAccuracyM : ℚ) (events : List GeoEvent) : AcqOutcome :=
  if !geoSupported then .unsupported
  else watchLoop startMs maxWaitMs desiredAccuracyM none events

/-- The event list produced by a run of timestamped samples. -/
def eventsOf (l : List (ℤ × GeoPosition)) : List GeoEvent :=
  l.map fun x => .sample x.1 x.2

/-! ## Theorems -/

theorem jsRound_near (m : ℚ) : |m - (jsRound m : ℚ)| ≤ 1/2 := by
  rw [jsRound_eq, abs_le]
  constructor
  · have h := Int.floor_le (m + 1/2)
    linarith
  · have h := Int.lt_floor_add_one (m + 1/2)
    linarith

/-- C8: formatMMSS computes seconds as the ceiling of ms/1000 (not the
floor), renders minutes and seconds zero-padded to two digits, any remaining
time in (0, 1000] ms displays as "00:01", and formatMMSS 1 = "00:01",
formatMMSS 0 = "00:00". -/
theorem formatMMSS_spec :
    (∀ ms : ℚ, formatMMSS ms =
      pad2 (toString (Int.fdiv ⌈ms / 1000⌉ 60)) ++ ":"
        ++ pad2 (toString (Int.tmod ⌈ms / 1000⌉ 60)))
    ∧ formatMMSS 0 = "00:00"
    ∧ formatMMSS 1 = "00:01"
    ∧ (∀ ms : ℚ, 0 < ms → ms ≤ 1000 → formatMMSS ms = "00:01")
    ∧ (∀ ms : ℚ, 59000 < ms → ms ≤ 60000 → formatMMSS ms = "01:00") := by
  have hgen : ∀ ms : ℚ, formatMMSS ms =
      pad2 (toString (Int.fdiv ⌈ms / 1000⌉ 60)) ++ ":"
        ++ pad2 (toString (Int.tmod ⌈ms / 1000⌉ 60)) := by
    intro ms
    simp only [formatMMSS, ratCeilZ_eq]
  refine ⟨hgen, ?_, ?_, ?_, ?_⟩
  · rw [hgen]
    norm_num
    decide
  · rw [hgen]
    have h : (⌈(1 : ℚ) / 1000⌉ : ℤ) = 1 := by
      rw [Int.ceil_eq_iff]
      norm_num
    rw [h]
    decide
  · intro ms h1 h2
    rw [hgen]
    have h : (⌈ms / 1000⌉ : ℤ) = 1 := by
      rw [Int.ceil_eq_iff]
      constructor
      · push_cast
        linarith
      · push_cast
        linarith
    rw [h]
    decide
  · intro ms h1 h2
    rw [hgen]
    have h : (⌈ms / 1000⌉ : ℤ) = 60 := by
      rw [Int.ceil_eq_iff]
      constructor
      · push_cast
        linarith
      · push_cast
        linarith
    rw [h]
    decide

theorem formatMMSS_spec_witness :
    (0 : ℚ) < 500 ∧ (500 : ℚ) ≤ 1000 ∧ formatMMSS 500 = "00:01" :=
  ⟨by decide, by decide, formatMMSS_spec.2.2.2.1 500 (by decide) (by decide)⟩

/-- C9: formatDistance renders meters below 1000 as the nearest whole
number of meters with unit m, and values at or above 1000 as kilometers
with two decimal digits and unit km; at the boundary, 999 gives "999 m",
1000 gives "1.00 km" and 1500 gives "1.50 km". -/
theorem formatDistance_spec :
    formatDistance 999 = "999 m"
    ∧ formatDistance 1000 = "1.00 km"
    ∧ formatDistance 1500 = "1.50 km"
    ∧ (∀ m : ℚ, 0 ≤ m → m < 1000 →
        ∃ k : ℤ, formatDistance m = toString k ++ " m" ∧ |m - (k : ℚ)| ≤ 1/2)
    ∧ (∀ m : ℚ, 1000 ≤ m →
        ∃ n : ℤ, 0 ≤ n
          ∧ formatDistance m =
              toString (Int.fdiv n 100) ++ "." ++ pad2 (toString (Int.tmod n 100)) ++ " km"
          ∧ |m / 1000 * 100 - (n : ℚ)| ≤ 1/2) := by
  refine ⟨?_, ?_, ?_, ?_, ?_⟩
  · rw [formatDistance, if_pos (by norm_num)]
    have h : jsRound (999 : ℚ) = 999 := by
      rw [jsRound_eq]
      norm_num
    rw [h]
    decide
  · rw [formatDistance, if_neg (by norm_num)]
    rw [toFixed2]
    have h : jsRound ((1000 : ℚ) / 1000 * 100) = 100 := by
      rw [jsRound_eq]
      norm_num
    rw [h]
    decide
  · rw [formatDistance, if_neg (by norm_num)]
    rw [toFixed2]
    have h : jsRound ((1500 : ℚ) / 1000 * 100) = 150 := by
      rw [jsRound_eq]
      norm_num
    rw [h]
    decide
  · intro m h0 h1
    refine ⟨jsRound m, ?_, jsRound_near m⟩
    rw [formatDistance, if_pos h1]
  · intro m h1
    refine ⟨jsRound (m / 1000 * 100), ?_, ?_, jsRound_near (m / 1000 * 100)⟩
    · rw [jsRound_eq]
      have : (0 : ℚ) ≤ m / 1000 * 100 + 1/2 := by positivity
      exact Int.floor_nonneg.mpr this
    · rw [formatDistance, if_neg (not_lt.mpr (by linarith)), toFixed2]

theorem formatDistance_spec_witness :
    (0 : ℚ) ≤ 999 ∧
      ∃ k : ℤ, formatDistance 999 = toString k ++ " m" ∧ |(999 : ℚ) - (k : ℚ)| ≤ 1/2 :=
  ⟨by decide, formatDistance_spec.2.2.2.1 999 (by decide) (by decide)⟩

/-- C2 counterexample: startCountdown 0 produces a countdown of a single
millisecond, not of at least one minute, so the claimed minimum one-minute
floor does not hold. -/
theorem startCountdown_zero_counterexample :
    startCountdown 0 0 = { endsAt := some 1, remainingMs := 1 }
    ∧ (startCountdown 0 0).remainingMs < 60000 := by
  have h : jsRound ((0 : ℚ) * 60000) = 0 := by
    rw [jsRound_eq]
    norm_num
  constructor
  · simp only [startCountdown, h]
    decide
  · simp only [startCountdown, h]
    decide

/-- C2 (amended): startCountdown sets endsAt to now plus
max(1, round(minutes * 60000)) milliseconds — a minimum floor of one
MILLISECOND, not one minute — and moves the timer from Idle to Running
(endsAt set and a positive remainingMs). -/
theorem startCountdown_spec (minutes : ℚ) (now : ℤ) :
    (startCountdown minutes now).endsAt = some (now + max 1 (jsRound (minutes * 60000)))
    ∧ 1 ≤ (startCountdown minutes now).remainingMs
    ∧ (startCountdown minutes now).endsAt ≠ none
    ∧ 0 < (startCountdown minutes now).remainingMs := by
  have hr : (startCountdown minutes now).remainingMs = max 1 (jsRound (minutes * 60000)) := by
    simp [startCountdown]
  refine ⟨by simp [startCountdown], ?_, by simp [startCountdown], ?_⟩
  · rw [hr]
    exact le_max_left _ _
  · rw [hr]
    exact lt_of_lt_of_le zero_lt_one (le_max_left _ _)

/-- C7: for a countdown with endsAt set, readCountdown recomputes
remainingMs as max(0, endsAt - now) from the clock (the stored remainingMs
is ignored), a read after endsAt has passed yields exactly 0, and the
result is never negative. -/
theorem readCountdown_spec (e r now : ℤ) (hnow : 0 ≤ now) :
    (readCountdown ⟨some e, r⟩ now).remainingMs = max 0 (e - now)
    ∧ (e ≤ now → (readCountdown ⟨some e, r⟩ now).remainingMs = 0)
    ∧ 0 ≤ (readCountdown ⟨some e, r⟩ now).remainingMs := by
  by_cases he : e = 0
  · subst he
    have h0 : readCountdown ⟨some 0, r⟩ now = { endsAt := none, remainingMs := 0 } := by
      simp [readCountdown]
    rw [h0]
    refine ⟨?_, fun _ => rfl, le_refl 0⟩
    show (0 : ℤ) = max 0 (0 - now)
    omega
  · have h0 : readCountdown ⟨some e, r⟩ now
        = { endsAt := some e, remainingMs := max 0 (e - now) } := by
      simp [readCountdown, he]
    rw [h0]
    refine ⟨rfl, fun h => ?_, ?_⟩
    · show max 0 (e - now) = 0
      omega
    · show (0 : ℤ) ≤ max 0 (e - now)
      omega

theorem readCountdown_spec_witness :
    (readCountdown ⟨some 100, 77⟩ 250).remainingMs = max 0 (100 - 250)
    ∧ ((100 : ℤ) ≤ 250 → (readCountdown ⟨some 100, 77⟩ 250).remainingMs = 0)
    ∧ 0 ≤ (readCountdown ⟨some 100, 77⟩ 250).remainingMs :=
  readCountdown_spec 100 77 250 (by decide)

/-- C3: the active handler emits a usable direct compass value verbatim;
otherwise a usable alpha value yields (360 - alpha) mod 360; otherwise it
emits heading null with error "No heading data".  Concretely, a direct
value 37 gives 37, alpha 37 alone gives 323, and no usable field gives the
error reading. -/
theorem compassHeading_fallback :
    (∀ ev : OrientEvent, ∀ h : ℚ, ev.webkitCompassHeading = .num h →
        compassHandler true ev = some ⟨some h, false, none⟩)
    ∧ (∀ ev : OrientEvent, ∀ a : ℚ, usableNum ev.webkitCompassHeading = none →
        ev.alpha = .num a → 0 ≤ a → a ≤ 360 →
        compassHandler true ev = some ⟨some (specMod (360 - a) 360), false, none⟩)
    ∧ (∀ ev : OrientEvent, usableNum ev.webkitCompassHeading = none →
        usableNum ev.alpha = none →
        compassHandler true ev = some ⟨none, false, some "No heading data"⟩)
    ∧ compassHandler true ⟨.num 37, .undef⟩ = some ⟨some 37, false, none⟩
    ∧ compassHandler true ⟨.undef, .num 37⟩ = some ⟨some 323, false, none⟩
    ∧ compassHandler true ⟨.nan, .nan⟩ = some ⟨none, false, some "No heading data"⟩ := by
  have halpha : ∀ ev : OrientEvent, ∀ a : ℚ, usableNum ev.webkitCompassHeading = none →
      ev.alpha = .num a →
      compassHandler true ev = some ⟨some (jsMod (360 - a) 360), false, none⟩ := by
    intro ev a hw ha
    simp only [compassHandler, Bool.not_true, Bool.false_eq_true, if_false, hw, ha]
    simp [usableNum]
  refine ⟨?_, ?_, ?_, ?_, ?_, ?_⟩
  · intro ev h hw
    simp only [compassHandler, Bool.not_true, Bool.false_eq_true, if_false, hw]
    simp [usableNum]
  · intro ev a hw ha h0 h360
    rw [halpha ev a hw ha, jsMod_eq_specMod (360 - a) 360 (by linarith) (by norm_num)]
  · intro ev hw ha
    simp only [compassHandler, Bool.not_true, Bool.false_eq_true, if_false, hw, ha]
  · rw [compassHandler]
    simp [usableNum]
  · have h := halpha ⟨.undef, .num 37⟩ 37 rfl rfl
    rw [h]
    have : jsMod (360 - 37) 360 = 323 := by
      rw [jsMod_eq_specMod _ _ (by norm_num) (by norm_num), specMod]
      norm_num
    rw [this]
  · rw [compassHandler]
    simp [usableNum]

theorem compassHeading_fallback_witness :
    usableNum (OrientEvent.mk .undef (.num 37)).webkitCompassHeading = none
    ∧ (OrientEvent.mk .undef (.num 37)).alpha = .num 37
    ∧ (0 : ℚ) ≤ 37 ∧ (37 : ℚ) ≤ 360
    ∧ compassHandler true ⟨.undef, .num 37⟩ = some ⟨some (specMod (360 - 37) 360), false, none⟩ :=
  ⟨rfl, rfl, by decide, by decide,
    compassHeading_fallback.2.1 ⟨.undef, .num 37⟩ 37 rfl rfl (by decide) (by decide)⟩

theorem compassOutputs_inactive (l : List CompassAction) : compassOutputs false l = [] := by
  induction l with
  | nil => rfl
  | cons a rest ih =>
      cases a with
      | orient ev => simpa [compassOutputs, compassHandler] using ih
      | stopCall => simpa [compassOutputs] using ih

/-- C6: the stop function of the Heading Source is idempotent — a second
stop call changes nothing — once stopped no update is delivered for the
remainder of the action sequence, and the handler drops an event already in
flight because it checks the active flag first. -/
theorem stopCompass_idempotent_no_delivery :
    (∀ (active : Bool) (l : List CompassAction),
        compassOutputs active (.stopCall :: .stopCall :: l)
          = compassOutputs active (.stopCall :: l))
    ∧ (∀ (active : Bool) (l1 l2 : List CompassAction),
        compassOutputs active (l1 ++ .stopCall :: l2) = compassOutputs active l1)
    ∧ (∀ ev : OrientEvent, compassHandler false ev = none) := by
  refine ⟨?_, ?_, ?_⟩
  · intro active l
    simp [compassOutputs]
  · intro active l1 l2
    induction l1 generalizing active with
    | nil =>
        simp only [List.nil_append, compassOutputs]
        exact compassOutputs_inactive l2
    | cons a rest ih =>
        cases a with
        | orient ev => simp [compassOutputs, ih]
        | stopCall => simp [compassOutputs, ih]
  · intro ev
    rfl

/-- C4: the fused arrow rotation equals the bearing when the heading is
null, equals (bearing - heading + 360) mod 360 when a heading in [0,360)
is present, and in particular bearing 90 with no heading gives 90,
bearing 90 with heading 45 gives 45, and bearing 10 with heading 350
gives 20. -/
theorem arrowRotation_spec :
    (∀ b : ℤ, arrowRotation (some b) none = (b : ℚ))
    ∧ (∀ (b : ℤ) (h : ℚ), 0 ≤ b → b < 360 → 0 ≤ h → h < 360 →
        arrowRotation (some b) (some h) = specMod ((b : ℚ) - h + 360) 360)
    ∧ arrowRotation (some 90) none = 90
    ∧ arrowRotation (some 90) (some 45) = 45
    ∧ arrowRotation (some 10) (some 350) = 20 := by
  have hmod : ∀ (b : ℤ) (h : ℚ), 0 ≤ b → h < 360 →
      arrowRotation (some b) (some h) = specMod ((b : ℚ) - h + 360) 360 := by
    intro b h hb h360
    rw [arrowRotation, jsMod_eq_specMod]
    · have : (0 : ℚ) ≤ (b : ℚ) := by exact_mod_cast hb
      linarith
    · norm_num
  refine ⟨fun b => rfl, fun b h hb _ _ h360 => hmod b h hb h360, rfl, ?_, ?_⟩
  · rw [hmod 90 45 (by decide) (by norm_num), specMod]
    norm_num
  · rw [hmod 10 350 (by decide) (by norm_num), specMod]
    norm_num

theorem arrowRotation_spec_witness :
    (0 : ℤ) ≤ 90 ∧ (90 : ℤ) < 360 ∧ (0 : ℚ) ≤ 45 ∧ (45 : ℚ) < 360
    ∧ arrowRotation (some 90) (some 45) = specMod ((90 : ℚ) - 45 + 360) 360 :=
  ⟨by decide, by decide, by decide, by decide,
    arrowRotation_spec.2.1 90 45 (by decide) (by decide) (by decide) (by decide)⟩

/-! ## Position Acquirer lemmas -/

theorem foldBest_cons (best : Option GeoPosition) (p : GeoPosition) (l : List GeoPosition) :
    foldBest best (p :: l) = foldBest (some (updateBest best p)) l := rfl

theorem foldBest_isSome :
    ∀ (l : List GeoPosition) (b : GeoPosition), ∃ q, foldBest (some b) l = some q := by
  intro l
  induction l with
  | nil => exact fun b => ⟨b, rfl⟩
  | cons p ps ih =>
      intro b
      rw [foldBest_cons]
      exact ih (updateBest (some b) p)

theorem foldBest_min :
    ∀ (l : List GeoPosition) (b q : GeoPosition), foldBest (some b) l = some q →
      (q = b ∨ q ∈ l) ∧ acc99999 q ≤ acc99999 b ∧ ∀ r ∈ l, acc99999 q ≤ acc99999 r := by
  intro l
  induction l with
  | nil =>
      intro b q hq
      have hqb : q = b := by
        simpa [foldBest] using hq.symm
      subst hqb
      exact ⟨Or.inl rfl, le_refl _, by simp⟩
  | cons p ps ih =>
      intro b q hq
      rw [foldBest_cons] at hq
      obtain ⟨hmem, hle, hall⟩ := ih (updateBest (some b) p) q hq
      have hub_le_b : acc99999 (updateBest (some b) p) ≤ acc99999 b := by
        simp only [updateBest]
        split_ifs with hlt
        · exact le_of_lt hlt
        · exact le_refl _
      have hub_le_p : acc99999 (updateBest (some b) p) ≤ acc99999 p := by
        simp only [updateBest]
        split_ifs with hlt
        · exact le_refl _
        · exact le_of_not_lt hlt
      refine ⟨?_, le_trans hle hub_le_b, ?_⟩
      · rcases hmem with h | h
        · rw [h]
          simp only [updateBest]
          split_ifs
          · exact Or.inr (List.mem_cons_self p ps)
          · exact Or.inl rfl
        · exact Or.inr (List.mem_cons_of_mem p h)
      · intro r hr
        rcases List.mem_cons.mp hr with h | h
        · rw [h]
          exact le_trans hle hub_le_p
        · exact hall r h

/-- The updated best after a run of samples is one of them, of minimal
accuracy value. -/
theorem updateBest_foldBest_none_min (ps : List GeoPosition) (p : GeoPosition) :
    updateBest (foldBest none ps) p ∈ ps ++ [p]
    ∧ ∀ r ∈ ps ++ [p], acc99999 (updateBest (foldBest none ps) p) ≤ acc99999 r := by
  cases ps with
  | nil => simp [foldBest, updateBest]
  | cons a l =>
      obtain ⟨q0, hq0⟩ := foldBest_isSome l a
      have hfb : foldBest none (a :: l) = some q0 := by
        rw [foldBest_cons]
        simpa [updateBest] using hq0
      obtain ⟨hmem0, hle0, hall0⟩ := foldBest_min l a q0 hq0
      have hq0mem : q0 ∈ a :: l := by
        rcases hmem0 with h | h
        · rw [h]
          exact List.mem_cons_self a l
        · exact List.mem_cons_of_mem a h
      rw [hfb]
      constructor
      · simp only [updateBest]
        split_ifs
        · simp
        · exact List.mem_append_left _ hq0mem
      · intro r hr
        rcases List.mem_append.mp hr with h | h
        · have hq0r : acc99999 q0 ≤ acc99999 r := by
            rcases List.mem_cons.mp h with h1 | h1
            · rw [h1]
              exact hle0
            · exact hall0 r h1
          simp only [updateBest]
          split_ifs with hlt
          · exact le_trans (le_of_lt hlt) hq0r
          · exact hq0r
        · have hrp : r = p := by simpa using h
          rw [hrp]
          simp only [updateBest]
          split_ifs with hlt
          · exact le_refl _
          · exact le_of_not_lt hlt

/-- A sample that meets the desired accuracy resolves the promise with that
sample at once. -/
theorem watchLoop_early (startMs t : ℤ) (maxW desA : ℚ) (p : GeoPosition)
    (rest : List GeoEvent) (best : Option GeoPosition) (hacc : acc99999 p ≤ desA) :
    watchLoop startMs maxW desA best (.sample t p :: rest) = .resolved p := by
  simp only [watchLoop]
  rw [if_pos hacc]

/-- A sample that misses the desired accuracy but arrives after the wait
budget resolves with the updated best. -/
theorem watchLoop_timeout (startMs t : ℤ) (maxW desA : ℚ) (p : GeoPosition)
    (rest : List GeoEvent) (best : Option GeoPosition)
    (hacc : desA < acc99999 p) (ht : maxW < ((t - startMs : ℤ) : ℚ)) :
    watchLoop startMs maxW desA best (.sample t p :: rest)
      = .resolved (updateBest best p) := by
  simp only [watchLoop]
  rw [if_neg (not_le.mpr hacc), if_pos ht]

/-- A sample that misses the desired accuracy within the wait budget only
updates the best and continues. -/
theorem watchLoop_step_skip (startMs t : ℤ) (maxW desA : ℚ) (p : GeoPosition)
    (rest : List GeoEvent) (best : Option GeoPosition)
    (hacc : desA < acc99999 p) (ht : ((t - startMs : ℤ) : ℚ) ≤ maxW) :
    watchLoop startMs maxW desA best (.sample t p :: rest)
      = watchLoop startMs maxW desA (some (updateBest best p)) rest := by
  simp only [watchLoop]
  rw [if_neg (not_le.mpr hacc), if_neg (not_lt.mpr ht)]

theorem watchLoop_skip (startMs : ℤ) (maxW desA : ℚ) :
    ∀ (pre : List (ℤ × GeoPosition)) (best : Option GeoPosition) (tail : List GeoEvent),
    (∀ x ∈ pre, desA < acc99999 x.2 ∧ ((x.1 - startMs : ℤ) : ℚ) ≤ maxW) →
    watchLoop startMs maxW desA best (eventsOf pre ++ tail)
      = watchLoop startMs maxW desA (foldBest best (pre.map Prod.snd)) tail := by
  intro pre
  induction pre with
  | nil =>
      intro best tail _
      simp [eventsOf, foldBest]
  | cons x xs ih =>
      intro best tail hpre
      obtain ⟨hacc, ht⟩ := hpre x (List.mem_cons_self x xs)
      have hrest : ∀ y ∈ xs, desA < acc99999 y.2 ∧ ((y.1 - startMs : ℤ) : ℚ) ≤ maxW :=
        fun y hy => hpre y (List.mem_cons_of_mem x hy)
      show watchLoop startMs maxW desA best (.sample x.1 x.2 :: (eventsOf xs ++ tail)) = _
      rw [watchLoop_step_skip startMs x.1 maxW desA x.2 _ best hacc ht]
      rw [ih (some (updateBest best x.2)) tail hrest]
      rfl

theorem watchLoop_ne_unsupported (startMs : ℤ) (maxW desA : ℚ) :
    ∀ (events : List GeoEvent) (best : Option GeoPosition),
    watchLoop startMs maxW desA best events ≠ .unsupported := by
  intro events
  induction events with
  | nil =>
      intro best h
      simp [watchLoop] at h
  | cons e rest ih =>
      intro best
      cases e with
      | failure t msg =>
          intro h
          simp [watchLoop] at h
      | sample t p =>
          simp only [watchLoop]
          split_ifs
          · simp
          · simp
          · exact ih _

/-- A sample at the given latitude with the given reported accuracy, used
for concrete acquisition runs. -/
def mkPos (lat acc : ℚ) : GeoPosition :=
  { coords := { latitude := lat, longitude := 0, accuracy := some acc }, timestamp := 0 }

/-- C1: during an acquisition run in which every earlier sample missed
desiredAccuracyM and arrived within maxWaitMs, a sample whose accuracy is
at or below desiredAccuracyM resolves the promise immediately with that
sample regardless of any later events; and a sample arriving after
maxWaitMs (still missing the threshold) resolves the promise with a sample
of minimal accuracy value among all samples seen so far, unknown accuracy
counting as the 99999 sentinel. -/
theorem getBestPosition_best_of (startMs t : ℤ) (maxW desA : ℚ)
    (pre : List (ℤ × GeoPosition)) (p : GeoPosition) (rest : List GeoEvent)
    (hpre : ∀ x ∈ pre, desA < acc99999 x.2 ∧ ((x.1 - startMs : ℤ) : ℚ) ≤ maxW) :
    (acc99999 p ≤ desA →
      getBestPosition true startMs maxW desA (eventsOf pre ++ .sample t p :: rest)
        = .resolved p)
    ∧ (desA < acc99999 p → maxW < ((t - startMs : ℤ) : ℚ) →
      ∃ q, getBestPosition true startMs maxW desA (eventsOf pre ++ .sample t p :: rest)
          = .resolved q
        ∧ q ∈ pre.map Prod.snd ++ [p]
        ∧ ∀ r ∈ pre.map Prod.snd ++ [p], acc99999 q ≤ acc99999 r) := by
  have hgb : getBestPosition true startMs maxW desA (eventsOf pre ++ .sample t p :: rest)
      = watchLoop startMs maxW desA (foldBest none (pre.map Prod.snd))
          (.sample t p :: rest) := by
    have h0 : getBestPosition true startMs maxW desA (eventsOf pre ++ .sample t p :: rest)
        = watchLoop startMs maxW desA none (eventsOf pre ++ .sample t p :: rest) := rfl
    rw [h0, watchLoop_skip startMs maxW desA pre none _ hpre]
  constructor
  · intro hacc
    rw [hgb, watchLoop_early startMs t maxW desA p rest _ hacc]
  · intro hacc ht
    rw [hgb, watchLoop_timeout startMs t maxW desA p rest _ hacc ht]
    obtain ⟨hmem, hmin⟩ := updateBest_foldBest_none_min (pre.map Prod.snd) p
    exact ⟨_, rfl, hmem, hmin⟩

theorem getBestPosition_best_of_witness :
    getBestPosition true 0 12000 25 (eventsOf [(0, mkPos 1 50)] ++ .sample 1000 (mkPos 2 10) :: [])
      = .resolved (mkPos 2 10) :=
  (getBestPosition_best_of 0 1000 12000 25 [(0, mkPos 1 50)] (mkPos 2 10) []
    (by decide)).1 (by decide)

/-- C5: getBestPosition rejects with the geolocation-unsupported error
exactly when the platform has no geolocation capability; a stream error
arriving before any resolving sample rejects with that error; and a sample
arriving after maxWaitMs without reaching the desired accuracy still
resolves successfully. -/
theorem getBestPosition_errors :
    (∀ (startMs : ℤ) (maxW desA : ℚ) (events : List GeoEvent),
        getBestPosition false startMs maxW desA events = .unsupported)
    ∧ (∀ (sup : Bool) (startMs : ℤ) (maxW desA : ℚ) (events : List GeoEvent),
        getBestPosition sup startMs maxW desA events = .unsupported → sup = false)
    ∧ (∀ (startMs : ℤ) (maxW desA : ℚ) (pre : List (ℤ × GeoPosition)) (t : ℤ)
        (msg : String) (rest : List GeoEvent),
        (∀ x ∈ pre, desA < acc99999 x.2 ∧ ((x.1 - startMs : ℤ) : ℚ) ≤ maxW) →
        getBestPosition true startMs maxW desA (eventsOf pre ++ .failure t msg :: rest)
          = .errored msg)
    ∧ (∀ (startMs t : ℤ) (maxW desA : ℚ) (pre : List (ℤ × GeoPosition))
        (p : GeoPosition) (rest : List GeoEvent),
        (∀ x ∈ pre, desA < acc99999 x.2 ∧ ((x.1 - startMs : ℤ) : ℚ) ≤ maxW) →
        desA < acc99999 p → maxW < ((t - startMs : ℤ) : ℚ) →
        ∃ q, getBestPosition true startMs maxW desA (eventsOf pre ++ .sample t p :: rest)
            = .resolved q) := by
  refine ⟨?_, ?_, ?_, ?_⟩
  · intro startMs maxW desA events
    rfl
  · intro sup startMs maxW desA events h
    cases sup with
    | false => rfl
    | true => exact absurd h (watchLoop_ne_unsupported startMs maxW desA events none)
  · intro startMs maxW desA pre t msg rest hpre
    have h0 : getBestPosition true startMs maxW desA (eventsOf pre ++ .failure t msg :: rest)
        = watchLoop startMs maxW desA none (eventsOf pre ++ .failure t msg :: rest) := rfl
    rw [h0, watchLoop_skip startMs maxW desA pre none _ hpre]
    rfl
  · intro startMs t maxW desA pre p rest hpre hacc ht
    have h0 : getBestPosition true startMs maxW desA (eventsOf pre ++ .sample t p :: rest)
        = watchLoop startMs maxW desA none (eventsOf pre ++ .sample t p :: rest) := rfl
    rw [h0, watchLoop_skip startMs maxW desA pre none _ hpre]
    rw [watchLoop_timeout startMs t maxW desA p rest _ hacc ht]
    exact ⟨_, rfl⟩

theorem getBestPosition_errors_witness :
    getBestPosition true 0 12000 25
        (eventsOf [(0, mkPos 1 50)] ++ .failure 500 "User denied Geolocation" :: [])
      = .errored "User denied Geolocation" :=
  getBestPosition_errors.2.2.1 0 12000 25 [(0, mkPos 1 50)] 500
    "User denied Geolocation" [] (by decide)

/-- C10: when a later sample has exactly the accuracy of the current best,
the best-so-far update keeps the earlier sample (the comparison is a strict
less-than), so a run of two equally accurate samples followed by a timeout
sample resolves with the earliest of the equally accurate ones. -/
theorem getBestPosition_tie_break (startMs t1 t2 t3 : ℤ) (maxW desA : ℚ)
    (p1 p2 p3 : GeoPosition)
    (heq : acc99999 p2 = acc99999 p1)
    (hd1 : desA < acc99999 p1) (hd3 : desA < acc99999 p3)
    (h13 : acc99999 p1 ≤ acc99999 p3)
    (ht1 : ((t1 - startMs : ℤ) : ℚ) ≤ maxW) (ht2 : ((t2 - startMs : ℤ) : ℚ) ≤ maxW)
    (ht3 : maxW < ((t3 - startMs : ℤ) : ℚ)) :
    updateBest (some p1) p2 = p1
    ∧ getBestPosition true startMs maxW desA
        [.sample t1 p1, .sample t2 p2, .sample t3 p3] = .resolved p1 := by
  have hd2 : desA < acc99999 p2 := by
    rw [heq]
    exact hd1
  have hup : updateBest (some p1) p2 = p1 := by
    simp only [updateBest]
    rw [if_neg]
    rw [heq]
    exact lt_irrefl _
  refine ⟨hup, ?_⟩
  have h0 : getBestPosition true startMs maxW desA
      [.sample t1 p1, .sample t2 p2, .sample t3 p3]
      = watchLoop startMs maxW desA none
          [.sample t1 p1, .sample t2 p2, .sample t3 p3] := rfl
  rw [h0, watchLoop_step_skip startMs t1 maxW desA p1 _ none hd1 ht1]
  have e1 : updateBest none p1 = p1 := rfl
  rw [e1, watchLoop_step_skip startMs t2 maxW desA p2 _ (some p1) hd2 ht2]
  rw [hup, watchLoop_timeout startMs t3 maxW desA p3 _ (some p1) hd3 ht3]
  have e3 : updateBest (some p1) p3 = p1 := by
    simp only [updateBest]
    rw [if_neg (not_lt.mpr h13)]
  rw [e3]

theorem getBestPosition_tie_break_witness :
    updateBest (some (mkPos 1 30)) (mkPos 2 30) = mkPos 1 30
    ∧ getBestPosition true 0 12000 25
        [.sample 0 (mkPos 1 30), .sample 1000 (mkPos 2 30), .sample 13000 (mkPos 3 40)]
      = .resolved (mkPos 1 30) :=
  getBestPosition_tie_break 0 0 1000 13000 12000 25 (mkPos 1 30) (mkPos 2 30) (mkPos 3 40)
    (by decide) (by decide) (by decide) (by decide) (by decide) (by decide) (by decide)
